import Mathlib

/-!
Verification of the financial-analytics core of the repository
(`Personal_proj.py`, `script.py`) against its natural-language
specification.  Numbers are embedded as exact rationals (with reals where
the source takes square roots or raises to fractional powers); Python
runtime failures (`ZeroDivisionError`) and silently-produced complex
values are made explicit in the result types.
-/

/-- Result of the Python float power operator `base ** e`.  Python returns
a float for a non-negative base or an integral exponent, raises
`ZeroDivisionError` for `0.0 ** negative`, and returns a *complex* number
for a negative base with a non-integral exponent. -/
inductive PyPowResult where
  | real (x : ℝ)
  | complexVal
  | zeroDivError

/-- Embeds Python's `base ** e` on floats (`Personal_proj.py` line 46 uses
`(1 + r) ** n_years`).  A rational exponent with denominator 1 models an
integral float exponent. -/
noncomputable def pyPow (base e : ℚ) : PyPowResult :=
  if base = 0 ∧ e < 0 then .zeroDivError
  else if base < 0 ∧ e.den ≠ 1 then .complexVal
  else if base < 0 then .real ((base : ℝ) ^ e.num)
  else .real ((base : ℝ) ^ (e : ℝ))

/-- Outcome of `calculate_investment_needs`: either a schedule of real
amounts, a schedule whose entries are (silently) non-real complex numbers,
or an uncaught Python `ZeroDivisionError`. -/
inductive PlanResult where
  | schedule (yearly monthly weekly : ℝ)
  | complexSchedule
  | zeroDivisionError

/-- The yearly amount of a schedule (0 for the non-schedule outcomes). -/
def PlanResult.yearlyD : PlanResult → ℝ
  | .schedule y _ _ => y
  | _ => 0

/-- Embeds `calculate_investment_needs(goal_amount, years, annual_return)`
from `Personal_proj.py` lines 40-54:
`yearly = goal_amount / ((1 + r) ** n_years - 1) * r`,
`monthly = yearly / 12`, `weekly = yearly / 52`.
A zero divisor `(1 + r) ** n_years - 1` raises `ZeroDivisionError` in
Python; a complex power propagates through the arithmetic and the function
silently returns complex-valued amounts. -/
noncomputable def calculate_investment_needs
    (goal_amount years annual_return : ℚ) : PlanResult :=
  let r := annual_return
  let n_years := years
  match pyPow (1 + r) n_years with
  | .zeroDivError => .zeroDivisionError
  | .complexVal => .complexSchedule
  | .real p =>
    if p - 1 = 0 then .zeroDivisionError
    else
      let yearly : ℝ := (goal_amount : ℝ) / (p - 1) * (r : ℝ)
      .schedule yearly (yearly / 12) (yearly / 52)

lemma pyPow_nonneg_base (base e : ℚ) (hb : 0 ≤ base) (he : ¬ e < 0 ∨ base ≠ 0) :
    pyPow base e = .real ((base : ℝ) ^ (e : ℝ)) := by
  have h1 : ¬ (base = 0 ∧ e < 0) := by
    rintro ⟨hb0, he0⟩
    rcases he with h | h
    · exact h he0
    · exact h hb0
  have h3 : ¬ base < 0 := not_lt.mpr hb
  have h2 : ¬ (base < 0 ∧ e.den ≠ 1) := fun h => h3 h.1
  unfold pyPow
  rw [if_neg h1, if_neg h2, if_neg h3]

lemma calc_needs_real (goal years r : ℚ) (hb : 0 ≤ 1 + r) (hy : 0 < years)
    (hp : ((1 + r : ℚ) : ℝ) ^ ((years : ℚ) : ℝ) ≠ 1) :
    calculate_investment_needs goal years r =
      .schedule ((goal : ℝ) / (((1 + r : ℚ) : ℝ) ^ ((years : ℚ) : ℝ) - 1) * (r : ℝ))
        ((goal : ℝ) / (((1 + r : ℚ) : ℝ) ^ ((years : ℚ) : ℝ) - 1) * (r : ℝ) / 12)
        ((goal : ℝ) / (((1 + r : ℚ) : ℝ) ^ ((years : ℚ) : ℝ) - 1) * (r : ℝ) / 52) := by
  have h1 : pyPow (1 + r) years = .real (((1 + r : ℚ) : ℝ) ^ ((years : ℚ) : ℝ)) :=
    pyPow_nonneg_base _ _ hb (Or.inl (not_lt.mpr hy.le))
  unfold calculate_investment_needs
  simp only [h1]
  rw [if_neg (sub_ne_zero.mpr hp)]

/-- C5: calling the planner with `annual_return = 0` does *not* produce a
typed `ZeroReturnUndefined` error: the code evaluates
`goal / ((1 + 0) ** years - 1)` and the zero divisor raises a raw Python
`ZeroDivisionError` (the embedding's `zeroDivisionError` outcome); no
`ZeroReturnUndefined` value exists anywhere in the code. -/
theorem plan_zero_return_raw_zero_division (goal years : ℚ)
    (hg : 0 < goal) (hy : 0 < years) :
    calculate_investment_needs goal years 0 = PlanResult.zeroDivisionError := by
  have h1 : pyPow (1 + 0) years = .real (((1 + 0 : ℚ) : ℝ) ^ ((years : ℚ) : ℝ)) :=
    pyPow_nonneg_base _ _ (by norm_num) (Or.inl (not_lt.mpr hy.le))
  have h2 : (((1 + 0 : ℚ) : ℝ) : ℝ) ^ ((years : ℚ) : ℝ) = 1 := by
    norm_num
  unfold calculate_investment_needs
  simp only [h1, h2]
  rw [if_pos (by norm_num)]

/-- Witness for C5 at goal 100000 and horizon 5 years. -/
theorem plan_zero_return_raw_zero_division_spot :
    calculate_investment_needs 100000 5 0 = PlanResult.zeroDivisionError :=
  plan_zero_return_raw_zero_division 100000 5 (by norm_num) (by norm_num)

/-- C6: for a return `r` with `1 + r < 0` and a non-integral horizon, the
planner does *not* fail with `UndefinedExponentiation`: Python evaluates
`(1 + r) ** years` to a complex number and the function silently returns a
schedule of complex amounts (the embedding's `complexSchedule` outcome). -/
theorem plan_negative_base_silent_complex (goal years r : ℚ)
    (hg : 0 < goal) (hy : 0 < years) (hb : 1 + r < 0) (hd : years.den ≠ 1) :
    calculate_investment_needs goal years r = PlanResult.complexSchedule := by
  have h1 : pyPow (1 + r) years = .complexVal := by
    unfold pyPow
    rw [if_neg, if_pos ⟨hb, hd⟩]
    rintro ⟨hb0, -⟩
    rw [hb0] at hb
    exact absurd hb (by norm_num)
  unfold calculate_investment_needs
  simp only [h1]

lemma den_five_halves : (5 / 2 : ℚ).den ≠ 1 := by
  intro h
  have h2 : ((5 / 2 : ℚ).num : ℚ) = 5 / 2 := Rat.coe_int_num_of_den_eq_one h
  have h3 : (2 : ℚ) * ((5 / 2 : ℚ).num : ℚ) = 5 := by rw [h2]; norm_num
  have h4 : (2 * (5 / 2 : ℚ).num : ℤ) = 5 := by exact_mod_cast h3
  omega

/-- Witness for C6 at goal 1000, horizon 5/2 years, return -3/2. -/
theorem plan_negative_base_silent_complex_spot :
    calculate_investment_needs 1000 (5 / 2) (-3 / 2) = PlanResult.complexSchedule :=
  plan_negative_base_silent_complex 1000 (5 / 2) (-3 / 2)
    (by norm_num) (by norm_num) (by norm_num) den_five_halves

lemma pow_spot : (((1 + 7 / 100 : ℚ) : ℝ) : ℝ) ^ (((5 : ℚ) : ℚ) : ℝ) =
    (14025517307 : ℝ) / 10 ^ 10 := by
  have h5 : (((5 : ℚ) : ℝ)) = ((5 : ℕ) : ℝ) := by norm_num
  rw [h5, Real.rpow_natCast]
  norm_num

lemma plan_spot_value :
    calculate_investment_needs 100000 5 (7 / 100) =
      PlanResult.schedule (70000000000000 / 4025517307 : ℝ)
        ((70000000000000 / 4025517307 : ℝ) / 12)
        ((70000000000000 / 4025517307 : ℝ) / 52) := by
  have h := calc_needs_real 100000 5 (7 / 100) (by norm_num) (by norm_num)
    (by rw [pow_spot]; norm_num)
  rw [h, pow_spot]
  norm_num

/-- C1 (amended): for positive goal and horizon and a return with
`1 + r ≥ 0` whose growth factor is not 1, the planner returns
`yearly = goal * r / ((1 + r) ^ years - 1)`, `monthly = yearly / 12` and
`weekly = yearly / 52`; at goal 100000, horizon 5 years and return 0.07
the yearly amount is within 0.01 of 17389.07 (the spec's figure of
17388.87 is off by about 0.20). -/
theorem plan_formula (goal years r : ℚ) (hg : 0 < goal) (hy : 0 < years)
    (hb : 0 ≤ 1 + r) (hp : ((1 + r : ℚ) : ℝ) ^ ((years : ℚ) : ℝ) ≠ 1) :
    calculate_investment_needs goal years r =
      PlanResult.schedule
        ((goal : ℝ) * r / (((1 + r : ℚ) : ℝ) ^ ((years : ℚ) : ℝ) - 1))
        ((goal : ℝ) * r / (((1 + r : ℚ) : ℝ) ^ ((years : ℚ) : ℝ) - 1) / 12)
        ((goal : ℝ) * r / (((1 + r : ℚ) : ℝ) ^ ((years : ℚ) : ℝ) - 1) / 52) ∧
    |(calculate_investment_needs 100000 5 (7 / 100)).yearlyD - 17389.07| ≤ 1 / 100 := by
  constructor
  · rw [calc_needs_real goal years r hb hy hp, div_mul_eq_mul_div]
  · rw [plan_spot_value]
    simp only [PlanResult.yearlyD]
    rw [abs_le]
    constructor <;> norm_num

/-- Witness for C1 (amended) at goal 100000, horizon 5, return 7/100. -/
theorem plan_formula_spot :
    calculate_investment_needs 100000 5 (7 / 100) =
      PlanResult.schedule
        (((100000 : ℚ) : ℝ) * (7 / 100 : ℚ) /
          (((1 + 7 / 100 : ℚ) : ℝ) ^ (((5 : ℚ) : ℚ) : ℝ) - 1))
        (((100000 : ℚ) : ℝ) * (7 / 100 : ℚ) /
          (((1 + 7 / 100 : ℚ) : ℝ) ^ (((5 : ℚ) : ℚ) : ℝ) - 1) / 12)
        (((100000 : ℚ) : ℝ) * (7 / 100 : ℚ) /
          (((1 + 7 / 100 : ℚ) : ℝ) ^ (((5 : ℚ) : ℚ) : ℝ) - 1) / 52) ∧
    |(calculate_investment_needs 100000 5 (7 / 100)).yearlyD - 17389.07| ≤ 1 / 100 :=
  plan_formula 100000 5 (7 / 100) (by norm_num) (by norm_num) (by norm_num)
    (by rw [pow_spot]; norm_num)

/-- C1 (counterexample to the spec's figure): at goal 100000, horizon 5
years and return 0.07 the yearly amount returned by the code differs from
the spec's claimed 17388.87 by more than 0.01 (the exact value is
70000000000000/4025517307 which is about 17389.0694). -/
theorem plan_spot_not_spec_figure :
    1 / 100 < |(calculate_investment_needs 100000 5 (7 / 100)).yearlyD - 17388.87| := by
  rw [plan_spot_value]
  simp only [PlanResult.yearlyD]
  refine lt_of_lt_of_le ?_ (le_abs_self _)
  norm_num

/-- `pandas.Series.min()` over the closing prices (0 for an empty series,
where pandas would give NaN; every claim assumes a non-empty series). -/
def listMin : List ℚ → ℚ
  | [] => 0
  | [x] => x
  | x :: y :: tl => min x (listMin (y :: tl))

/-- `pandas.Series.max()` over the closing prices (0 for an empty series). -/
def listMax : List ℚ → ℚ
  | [] => 0
  | [x] => x
  | x :: y :: tl => max x (listMax (y :: tl))

lemma listMin_le {l : List ℚ} {x : ℚ} (hx : x ∈ l) : listMin l ≤ x := by
  induction l with
  | nil => cases hx
  | cons a tl ih =>
    cases tl with
    | nil =>
      rw [List.mem_singleton] at hx
      rw [hx]
      simp [listMin]
    | cons b tl2 =>
      rcases List.mem_cons.mp hx with h | h
      · rw [h, listMin]
        exact min_le_left _ _
      · exact le_trans (min_le_right _ _) (ih h)

lemma listMin_mem {l : List ℚ} (h : l ≠ []) : listMin l ∈ l := by
  induction l with
  | nil => exact absurd rfl h
  | cons a tl ih =>
    cases tl with
    | nil => exact List.mem_singleton.mpr rfl
    | cons b tl2 =>
      rw [listMin]
      rcases min_cases a (listMin (b :: tl2)) with ⟨he, -⟩ | ⟨he, -⟩
      · rw [he]; exact List.mem_cons_self _ _
      · rw [he]; exact List.mem_cons_of_mem _ (ih (by simp))

lemma le_listMax {l : List ℚ} {x : ℚ} (hx : x ∈ l) : x ≤ listMax l := by
  induction l with
  | nil => cases hx
  | cons a tl ih =>
    cases tl with
    | nil =>
      rw [List.mem_singleton] at hx
      rw [hx]
      simp [listMax]
    | cons b tl2 =>
      rcases List.mem_cons.mp hx with h | h
      · rw [h, listMax]
        exact le_max_left _ _
      · exact le_trans (ih h) (le_max_right _ _)

lemma listMax_mem {l : List ℚ} (h : l ≠ []) : listMax l ∈ l := by
  induction l with
  | nil => exact absurd rfl h
  | cons a tl ih =>
    cases tl with
    | nil => exact List.mem_singleton.mpr rfl
    | cons b tl2 =>
      rw [listMax]
      rcases max_cases a (listMax (b :: tl2)) with ⟨he, -⟩ | ⟨he, -⟩
      · rw [he]; exact List.mem_cons_self _ _
      · rw [he]; exact List.mem_cons_of_mem _ (ih (by simp))

/-- `hist_data['Close'].resample('Y').last()`: the last observed closing
price of each calendar year, in chronological order.  The input pairs each
closing price with its calendar year; timestamps are strictly increasing,
so equal years are adjacent.  (For a gap year with no observations pandas
would emit a NaN row; such rows are omitted here — no claim involves a
series with gap years.) -/
def yearlyLast : List (ℕ × ℚ) → List ℚ
  | [] => []
  | [(_, p)] => [p]
  | (y, p) :: (y2, p2) :: tl =>
    if y2 = y then yearlyLast ((y2, p2) :: tl)
    else p :: yearlyLast ((y2, p2) :: tl)

/-- `Series.pct_change()`: `none` (NaN) at index 0, then
`(x_i - x_{i-1}) / x_{i-1}`. -/
def pctChange (xs : List ℚ) : List (Option ℚ) :=
  match xs with
  | [] => []
  | _ :: _ => none :: (xs.zip xs.tail).map (fun pr => some ((pr.2 - pr.1) / pr.1))

/-- `Series.mean()` with pandas' default NaN skipping: `none` (NaN) when
no non-null value exists. -/
def meanSkipna (l : List (Option ℚ)) : Option ℚ :=
  let vs := l.filterMap id
  if vs = [] then none else some (vs.sum / vs.length)

/-- `Series.std()` (sample standard deviation, `ddof=1`) with pandas'
default NaN skipping: `none` (NaN) when fewer than 2 non-null values
exist. -/
noncomputable def stdSkipna (l : List (Option ℚ)) : Option ℝ :=
  let vs := l.filterMap id
  if vs.length < 2 then none
  else
    let m : ℝ := ((vs.sum : ℚ) : ℝ) / vs.length
    some (Real.sqrt ((vs.map (fun x => ((x : ℝ) - m) ^ 2)).sum / (vs.length - 1)))

/-- The metrics dict built by `calculate_metrics`.  `none` stands for a
NaN produced by pandas. -/
structure Metrics where
  avg_annual_return : Option ℚ
  volatility : Option ℝ
  max_drawdown : ℚ
  current_price : ℚ

/-- Embeds `calculate_metrics(hist_data)` from `Personal_proj.py`
lines 29-38.  The input is the `Close` series, each price paired with the
calendar year of its timestamp, in chronological order. -/
noncomputable def calculate_metrics (hist_data : List (ℕ × ℚ)) : Metrics :=
  let closes := hist_data.map Prod.snd
  let annual_returns := pctChange (yearlyLast hist_data)
  { avg_annual_return := meanSkipna annual_returns
    volatility := stdSkipna annual_returns
    max_drawdown := (listMin closes - listMax closes) / listMax closes
    current_price := closes.getLastD 0 }

/-- C2: for a non-empty series of strictly positive prices the maximum
drawdown computed by `calculate_metrics` is
`(min over the whole series - max over the whole series) / max`, and it
always lies in `[-1, 0]`. -/
theorem max_drawdown_bounds (hist_data : List (ℕ × ℚ))
    (hne : hist_data ≠ []) (hpos : ∀ p ∈ hist_data, 0 < p.2) :
    (calculate_metrics hist_data).max_drawdown =
      (listMin (hist_data.map Prod.snd) - listMax (hist_data.map Prod.snd)) /
        listMax (hist_data.map Prod.snd) ∧
    -1 ≤ (calculate_metrics hist_data).max_drawdown ∧
    (calculate_metrics hist_data).max_drawdown ≤ 0 := by
  have hform : (calculate_metrics hist_data).max_drawdown =
      (listMin (hist_data.map Prod.snd) - listMax (hist_data.map Prod.snd)) /
        listMax (hist_data.map Prod.snd) := rfl
  have hcne : hist_data.map Prod.snd ≠ [] := by
    intro h
    exact hne (List.map_eq_nil_iff.mp h)
  have hposc : ∀ x ∈ hist_data.map Prod.snd, 0 < x := by
    intro x hx
    rcases List.mem_map.mp hx with ⟨p, hp, hpx⟩
    exact hpx ▸ hpos p hp
  have hminpos : 0 < listMin (hist_data.map Prod.snd) :=
    hposc _ (listMin_mem hcne)
  have hmaxpos : 0 < listMax (hist_data.map Prod.snd) :=
    hposc _ (listMax_mem hcne)
  have hminmax : listMin (hist_data.map Prod.snd) ≤ listMax (hist_data.map Prod.snd) :=
    listMin_le (listMax_mem hcne)
  refine ⟨hform, ?_, ?_⟩
  · rw [hform, le_div_iff₀ hmaxpos]
    nlinarith
  · rw [hform]
    exact div_nonpos_iff.mpr (Or.inr ⟨by linarith, hmaxpos.le⟩)

/-- Witness for C2 on the two-point series (year 2020 price 100,
year 2021 price 80). -/
theorem max_drawdown_bounds_spot :
    (calculate_metrics [(2020, 100), (2021, 80)]).max_drawdown =
      (listMin ([(2020, (100 : ℚ)), (2021, 80)].map Prod.snd) -
        listMax ([(2020, (100 : ℚ)), (2021, 80)].map Prod.snd)) /
        listMax ([(2020, (100 : ℚ)), (2021, 80)].map Prod.snd) ∧
    -1 ≤ (calculate_metrics [(2020, 100), (2021, 80)]).max_drawdown ∧
    (calculate_metrics [(2020, 100), (2021, 80)]).max_drawdown ≤ 0 :=
  max_drawdown_bounds [(2020, 100), (2021, 80)] (by simp)
    (by intro p hp; fin_cases hp <;> norm_num)

lemma yearlyLast_const_year (y0 : ℕ) :
    ∀ l : List (ℕ × ℚ), l ≠ [] → (∀ p ∈ l, p.1 = y0) →
      ∃ q : ℚ, yearlyLast l = [q] := by
  intro l
  induction l with
  | nil => intro h; exact absurd rfl h
  | cons a tl ih =>
    intro _ hy
    cases tl with
    | nil =>
      rcases a with ⟨ya, pa⟩
      exact ⟨pa, rfl⟩
    | cons b tl2 =>
      rcases a with ⟨ya, pa⟩
      rcases b with ⟨yb, pb⟩
      have hya : ya = y0 := hy (ya, pa) (List.mem_cons_self _ _)
      have hyb : yb = y0 := hy (yb, pb) (List.mem_cons_of_mem _ (List.mem_cons_self _ _))
      obtain ⟨q, hq⟩ := ih (by simp)
        (fun p hp => hy p (List.mem_cons_of_mem _ hp))
      refine ⟨q, ?_⟩
      rw [yearlyLast, if_pos (hyb.trans hya.symm), hq]

/-- C4: `calculate_metrics` does *not* signal an `InsufficientHistory`
error for a series confined to a single calendar year: it returns a
metrics record whose average annual return and volatility are NaN
(`pct_change` of the single yearly close is NaN, and pandas' `mean` and
`std` of an all-NaN series are NaN).  No error value exists in the
function's result type. -/
theorem metrics_single_year_nan (hist_data : List (ℕ × ℚ)) (y0 : ℕ)
    (hne : hist_data ≠ []) (hy : ∀ p ∈ hist_data, p.1 = y0) :
    (calculate_metrics hist_data).avg_annual_return = none ∧
    (calculate_metrics hist_data).volatility = none := by
  obtain ⟨q, hq⟩ := yearlyLast_const_year y0 hist_data hne hy
  constructor
  · show meanSkipna (pctChange (yearlyLast hist_data)) = none
    rw [hq]
    simp [pctChange, meanSkipna]
  · show stdSkipna (pctChange (yearlyLast hist_data)) = none
    rw [hq]
    simp [pctChange, stdSkipna]

/-- Witness for C4: the two-point 2020-only series (100 then 110) yields
NaN average annual return and NaN volatility, not an error. -/
theorem metrics_single_year_nan_spot :
    (calculate_metrics [(2020, 100), (2020, 110)]).avg_annual_return = none ∧
    (calculate_metrics [(2020, 100), (2020, 110)]).volatility = none :=
  metrics_single_year_nan [(2020, 100), (2020, 110)] 2020 (by simp)
    (by intro p hp; fin_cases hp <;> rfl)

/-- A numpy float64 as it occurs in the scoring code: a finite value,
one of the infinities, or NaN.  numpy turns `1 / 0.0` into `inf` with a
warning instead of raising. -/
inductive NpVal where
  | fin (q : ℚ)
  | posInf
  | negInf
  | nan
deriving DecidableEq

/-- IEEE-754 addition on the embedded float values. -/
def NpVal.add : NpVal → NpVal → NpVal
  | .fin a, .fin b => .fin (a + b)
  | .fin _, .posInf => .posInf
  | .fin _, .negInf => .negInf
  | .fin _, .nan => .nan
  | .posInf, .fin _ => .posInf
  | .posInf, .posInf => .posInf
  | .posInf, .negInf => .nan
  | .posInf, .nan => .nan
  | .negInf, .fin _ => .negInf
  | .negInf, .posInf => .nan
  | .negInf, .negInf => .negInf
  | .negInf, .nan => .nan
  | .nan, _ => .nan

/-- IEEE-754 multiplication on the embedded float values. -/
def NpVal.mul : NpVal → NpVal → NpVal
  | .fin a, .fin b => .fin (a * b)
  | .fin a, .posInf => if a = 0 then .nan else if 0 < a then .posInf else .negInf
  | .fin a, .negInf => if a = 0 then .nan else if 0 < a then .negInf else .posInf
  | .fin _, .nan => .nan
  | .posInf, .fin b => if b = 0 then .nan else if 0 < b then .posInf else .negInf
  | .posInf, .posInf => .posInf
  | .posInf, .negInf => .negInf
  | .posInf, .nan => .nan
  | .negInf, .fin b => if b = 0 then .nan else if 0 < b then .negInf else .posInf
  | .negInf, .posInf => .negInf
  | .negInf, .negInf => .posInf
  | .negInf, .nan => .nan
  | .nan, _ => .nan

/-- IEEE-754 division on the embedded float values; in particular
`fin a / fin 0` is an infinity (or NaN for `0/0`), exactly numpy's
behaviour for `1 / np.float64(0.0)`. -/
def NpVal.div : NpVal → NpVal → NpVal
  | .fin a, .fin b =>
    if b = 0 then (if a = 0 then .nan else if 0 < a then .posInf else .negInf)
    else .fin (a / b)
  | .fin _, .posInf => .fin 0
  | .fin _, .negInf => .fin 0
  | .fin _, .nan => .nan
  | .posInf, .fin b => if 0 ≤ b then .posInf else .negInf
  | .posInf, .posInf => .nan
  | .posInf, .negInf => .nan
  | .posInf, .nan => .nan
  | .negInf, .fin b => if 0 ≤ b then .negInf else .posInf
  | .negInf, .posInf => .nan
  | .negInf, .negInf => .nan
  | .negInf, .nan => .nan
  | .nan, _ => .nan

/-- `abs` on the embedded float values. -/
def NpVal.npAbs : NpVal → NpVal
  | .fin a => .fin |a|
  | .posInf => .posInf
  | .negInf => .posInf
  | .nan => .nan

/-- Python's strict `>` on floats: false whenever either side is NaN. -/
def NpVal.gtb : NpVal → NpVal → Bool
  | .fin a, .fin b => decide (b < a)
  | .fin _, .posInf => false
  | .fin _, .negInf => true
  | .fin _, .nan => false
  | .posInf, .fin _ => true
  | .posInf, .posInf => false
  | .posInf, .negInf => true
  | .posInf, .nan => false
  | .negInf, _ => false
  | .nan, _ => false

/-- The metrics of one candidate as consumed by the scorer (the
`avg_annual_return`, `volatility` and `max_drawdown` entries of the
metrics dict). -/
structure CandMetrics where
  avg_annual_return : ℚ
  volatility : ℚ
  max_drawdown : ℚ
deriving DecidableEq

/-- Embeds `get_index_score(metrics, years)` from `Personal_proj.py`
lines 79-84 (duplicated at lines 193-198):
`(avg * 0.4 + (1/abs(vol)) * 0.3 + (1/abs(mdd)) * 0.3) * (1 if years > 10 else 0.8)`,
with numpy float semantics for each operation. -/
def get_index_score (metrics : CandMetrics) (years : ℚ) : NpVal :=
  ((((NpVal.fin metrics.avg_annual_return).mul (.fin 0.4)).add
      (((NpVal.fin 1).div (NpVal.fin metrics.volatility).npAbs).mul (.fin 0.3))).add
    (((NpVal.fin 1).div (NpVal.fin metrics.max_drawdown).npAbs).mul (.fin 0.3))).mul
    (.fin (if 10 < years then 1 else 0.8))

/-- C3: with nonzero volatility and nonzero maximum drawdown the score is
the finite value
`(0.4 * avg + 0.3 * (1/|vol|) + 0.3 * (1/|mdd|)) * (1 if years > 10 else 0.8)`,
the factor being 0.8 whenever the horizon is at most 10 years (so also at
exactly 10). -/
theorem get_index_score_formula (metrics : CandMetrics) (years : ℚ)
    (hv : metrics.volatility ≠ 0) (hd : metrics.max_drawdown ≠ 0) :
    get_index_score metrics years =
      NpVal.fin ((0.4 * metrics.avg_annual_return +
        0.3 * (1 / |metrics.volatility|) + 0.3 * (1 / |metrics.max_drawdown|)) *
        (if 10 < years then 1 else 0.8)) := by
  have hva : |metrics.volatility| ≠ 0 := abs_ne_zero.mpr hv
  have hda : |metrics.max_drawdown| ≠ 0 := abs_ne_zero.mpr hd
  unfold get_index_score
  rw [NpVal.npAbs, NpVal.npAbs, NpVal.div, NpVal.div,
    if_neg hva, if_neg hda]
  rw [NpVal.mul, NpVal.mul, NpVal.mul, NpVal.add, NpVal.add, NpVal.mul]
  congr 1
  ring

/-- Witness for C3 at avg 1/10, volatility 1/5, drawdown -1/4 and a
horizon of exactly 10 years (factor 0.8 applies). -/
theorem get_index_score_formula_spot :
    get_index_score ⟨1 / 10, 1 / 5, -1 / 4⟩ 10 =
      NpVal.fin ((0.4 * (1 / 10) + 0.3 * (1 / |(1 / 5 : ℚ)|) +
        0.3 * (1 / |(-1 / 4 : ℚ)|)) * (if (10 : ℚ) < 10 then 1 else 0.8)) :=
  get_index_score_formula ⟨1 / 10, 1 / 5, -1 / 4⟩ 10 (by norm_num) (by norm_num)

lemma recip_term_zero :
    ((NpVal.fin 1).div (NpVal.fin (0 : ℚ)).npAbs).mul (.fin 0.3) = .posInf := by
  norm_num [NpVal.npAbs, NpVal.div, NpVal.mul]

lemma recip_term_ne (v : ℚ) (hv : v ≠ 0) :
    ((NpVal.fin 1).div (NpVal.fin v).npAbs).mul (.fin 0.3) =
      .fin (1 / |v| * 0.3) := by
  rw [NpVal.npAbs, NpVal.div, if_neg (abs_ne_zero.mpr hv), NpVal.mul]

/-- C7: when a candidate's volatility or maximum drawdown is exactly zero,
the scorer does *not* fail with a typed `DivisionUndefined` error: numpy
silently evaluates the reciprocal `1 / abs(0.0)` to `inf`, the whole score
becomes `+inf`, and ranking proceeds normally (`get_index_score` has no
error outcome at all). -/
theorem score_silent_infinity (metrics : CandMetrics) (years : ℚ)
    (h : metrics.volatility = 0 ∨ metrics.max_drawdown = 0) :
    get_index_score metrics years = NpVal.posInf := by
  have hcpos : (0 : ℚ) < (if 10 < years then (1 : ℚ) else 0.8) := by
    by_cases h10 : 10 < years <;> simp [h10] <;> norm_num
  have hsum : (((NpVal.fin metrics.avg_annual_return).mul (.fin 0.4)).add
      (((NpVal.fin 1).div (NpVal.fin metrics.volatility).npAbs).mul (.fin 0.3))).add
      (((NpVal.fin 1).div (NpVal.fin metrics.max_drawdown).npAbs).mul (.fin 0.3)) =
      NpVal.posInf := by
    by_cases hv : metrics.volatility = 0 <;> by_cases hd : metrics.max_drawdown = 0
    · rw [hv, hd, recip_term_zero]
      rfl
    · rw [hv, recip_term_zero, recip_term_ne _ hd]
      rfl
    · rw [hd, recip_term_zero, recip_term_ne _ hv]
      rfl
    · rcases h with h0 | h0
      · exact absurd h0 hv
      · exact absurd h0 hd
  unfold get_index_score
  rw [hsum, NpVal.mul, if_neg (ne_of_gt hcpos), if_pos hcpos]

/-- Witness for C7: a candidate with zero volatility scores `+inf`. -/
theorem score_silent_infinity_spot :
    get_index_score ⟨1 / 10, 0, -1 / 4⟩ 5 = NpVal.posInf :=
  score_silent_infinity ⟨1 / 10, 0, -1 / 4⟩ 5 (Or.inl rfl)

/-- Embeds `recommended_index = max(index_scores, key=index_scores.get)`
(`Personal_proj.py` lines 86-89 and 200-203).  The candidates are listed
in dict insertion order; Python's `max` keeps the current best and
replaces it only when a later item's key compares strictly greater, so
the *first* maximal candidate in insertion order wins.  `max` raises on an
empty dict, hence the `Option`. -/
def rank (candidates : List (String × CandMetrics)) (years : ℚ) :
    Option String :=
  match candidates with
  | [] => none
  | c :: rest =>
    some ((rest.foldl (fun best cand =>
      if (get_index_score cand.2 years).gtb (get_index_score best.2 years)
      then cand else best) c).1)

lemma gtb_irrefl (v : NpVal) : v.gtb v = false := by
  cases v with
  | fin q => simp [NpVal.gtb]
  | posInf => rfl
  | negInf => rfl
  | nan => rfl

/-- C8 (amended): on two candidates with exactly equal scores, `rank`
returns the candidate listed *first* (dict insertion order), regardless of
the lexical order of the identifiers. -/
theorem rank_tie_first_in_order (n1 n2 : String) (m1 m2 : CandMetrics)
    (years : ℚ) (h : get_index_score m1 years = get_index_score m2 years) :
    rank [(n1, m1), (n2, m2)] years = some n1 := by
  unfold rank
  simp only [List.foldl]
  rw [h, gtb_irrefl]
  simp

/-- Witness for C8 (amended): two equal-score candidates named "B" then
"A"; the first-listed "B" is returned. -/
theorem rank_tie_first_in_order_spot :
    rank [("B", ⟨1 / 10, 1 / 5, -1 / 4⟩), ("A", ⟨1 / 10, 1 / 5, -1 / 4⟩)] 5 =
      some "B" :=
  rank_tie_first_in_order "B" "A" ⟨1 / 10, 1 / 5, -1 / 4⟩ ⟨1 / 10, 1 / 5, -1 / 4⟩ 5 rfl

/-- C8 (counterexample): with the identical metrics (hence exactly equal
scores) listed under "B" first and "A" second, `rank` returns "B", which
is *not* the lexically smaller identifier (the character list of "A" is
lexically below that of "B"). -/
theorem rank_tie_not_lexical :
    rank [("B", ⟨1 / 10, 1 / 5, -1 / 4⟩), ("A", ⟨1 / 10, 1 / 5, -1 / 4⟩)] 5 =
      some "B" ∧
    get_index_score ⟨1 / 10, 1 / 5, -1 / 4⟩ 5 =
      get_index_score ⟨1 / 10, 1 / 5, -1 / 4⟩ 5 ∧
    "A".data < "B".data ∧ ("B" : String) ≠ "A" := by
  refine ⟨?_, rfl, by decide, by decide⟩
  unfold rank
  simp only [List.foldl]
  rw [gtb_irrefl]
  simp

/-- The ordinary-least-squares slope of `sklearn.LinearRegression` fitted
to the pairs (index position, price), written as its closed-form
normal-equation solution
`(n * Σ x y - Σ x * Σ y) / (n * Σ x² - (Σ x)²)` with `x i = i`. -/
def olsSlope (ys : List ℚ) : ℚ :=
  ((ys.length : ℚ) * (∑ i ∈ Finset.range ys.length, (i : ℚ) * ys.getD i 0) -
      (∑ i ∈ Finset.range ys.length, (i : ℚ)) *
        (∑ i ∈ Finset.range ys.length, ys.getD i 0)) /
    ((ys.length : ℚ) * (∑ i ∈ Finset.range ys.length, (i : ℚ) ^ 2) -
      (∑ i ∈ Finset.range ys.length, (i : ℚ)) ^ 2)

/-- The ordinary-least-squares intercept `(Σ y - slope * Σ x) / n`. -/
def olsIntercept (ys : List ℚ) : ℚ :=
  ((∑ i ∈ Finset.range ys.length, ys.getD i 0) -
      olsSlope ys * (∑ i ∈ Finset.range ys.length, (i : ℚ))) /
    (ys.length : ℚ)

/-- Embeds `linear_regression_forecast(df, days)` from `script.py`
lines 70-81: drop rows with a missing price, return an empty forecast for
fewer than 2 remaining rows, otherwise fit an OLS line to
(index position, price), predict at the `days` further index positions
`n, …, n + days - 1`, and attach consecutive calendar dates (here: day
numbers) starting the day after the last observed date. -/
def linear_regression_forecast (df : List (ℤ × Option ℚ)) (days : ℕ) :
    List (ℤ × ℚ) :=
  let clean := df.filterMap (fun r => r.2.map (fun p => (r.1, p)))
  if clean.length < 2 then []
  else
    (List.range days).map (fun j =>
      ((clean.map Prod.fst).getLastD 0 + 1 + (j : ℤ),
        olsIntercept (clean.map Prod.snd) +
          olsSlope (clean.map Prod.snd) * ((clean.length : ℚ) + (j : ℚ))))

lemma sum_range_cast (n : ℕ) :
    (∑ i ∈ Finset.range n, (i : ℚ)) = (n : ℚ) * ((n : ℚ) - 1) / 2 := by
  induction n with
  | zero => simp
  | succ m ih =>
    rw [Finset.sum_range_succ, ih]
    push_cast
    ring

lemma sum_range_cast_sq (n : ℕ) :
    (∑ i ∈ Finset.range n, (i : ℚ) ^ 2) =
      (n : ℚ) * ((n : ℚ) - 1) * (2 * (n : ℚ) - 1) / 6 := by
  induction n with
  | zero => simp
  | succ m ih =>
    rw [Finset.sum_range_succ, ih]
    push_cast
    ring

lemma sum_aff (ys : List ℚ) (a b : ℚ)
    (h : ∀ i, i < ys.length → ys.getD i 0 = a + b * i) :
    (∑ i ∈ Finset.range ys.length, ys.getD i 0) =
      (ys.length : ℚ) * a + b * (∑ i ∈ Finset.range ys.length, (i : ℚ)) := by
  rw [Finset.sum_congr rfl
    (fun i hi => h i (Finset.mem_range.mp hi))]
  rw [Finset.sum_add_distrib, Finset.sum_const, Finset.card_range,
    nsmul_eq_mul, ← Finset.mul_sum]

lemma sum_aff_xy (ys : List ℚ) (a b : ℚ)
    (h : ∀ i, i < ys.length → ys.getD i 0 = a + b * i) :
    (∑ i ∈ Finset.range ys.length, (i : ℚ) * ys.getD i 0) =
      a * (∑ i ∈ Finset.range ys.length, (i : ℚ)) +
        b * (∑ i ∈ Finset.range ys.length, (i : ℚ) ^ 2) := by
  have h1 : ∀ i ∈ Finset.range ys.length,
      (i : ℚ) * ys.getD i 0 = a * (i : ℚ) + b * (i : ℚ) ^ 2 := by
    intro i hi
    rw [h i (Finset.mem_range.mp hi)]
    ring
  rw [Finset.sum_congr rfl h1, Finset.sum_add_distrib,
    ← Finset.mul_sum, ← Finset.mul_sum]

lemma ols_denom_pos (n : ℕ) (h2 : 2 ≤ n) :
    0 < (n : ℚ) * (∑ i ∈ Finset.range n, (i : ℚ) ^ 2) -
      (∑ i ∈ Finset.range n, (i : ℚ)) ^ 2 := by
  have h2q : (2 : ℚ) ≤ (n : ℚ) := by exact_mod_cast h2
  rw [sum_range_cast, sum_range_cast_sq]
  have hkey : (n : ℚ) * ((n : ℚ) * ((n : ℚ) - 1) * (2 * (n : ℚ) - 1) / 6) -
      ((n : ℚ) * ((n : ℚ) - 1) / 2) ^ 2 =
      (n : ℚ) ^ 2 * ((n : ℚ) - 1) * ((n : ℚ) + 1) / 12 := by
    ring
  rw [hkey]
  have hn : (0 : ℚ) < (n : ℚ) := by linarith
  have h1 : (0 : ℚ) < (n : ℚ) ^ 2 := by positivity
  have h3 : (0 : ℚ) < (n : ℚ) - 1 := by linarith
  have h4 : (0 : ℚ) < (n : ℚ) + 1 := by linarith
  have := mul_pos (mul_pos h1 h3) h4
  linarith

lemma olsSlope_affine (ys : List ℚ) (a b : ℚ) (h2 : 2 ≤ ys.length)
    (h : ∀ i, i < ys.length → ys.getD i 0 = a + b * i) :
    olsSlope ys = b := by
  have hd := ols_denom_pos ys.length h2
  unfold olsSlope
  rw [sum_aff ys a b h, sum_aff_xy ys a b h]
  have hnum : (ys.length : ℚ) *
      (a * (∑ i ∈ Finset.range ys.length, (i : ℚ)) +
        b * (∑ i ∈ Finset.range ys.length, (i : ℚ) ^ 2)) -
      (∑ i ∈ Finset.range ys.length, (i : ℚ)) *
        ((ys.length : ℚ) * a + b * (∑ i ∈ Finset.range ys.length, (i : ℚ))) =
      b * ((ys.length : ℚ) * (∑ i ∈ Finset.range ys.length, (i : ℚ) ^ 2) -
        (∑ i ∈ Finset.range ys.length, (i : ℚ)) ^ 2) := by
    ring
  rw [hnum, mul_div_assoc, div_self (ne_of_gt hd), mul_one]

lemma olsIntercept_affine (ys : List ℚ) (a b : ℚ) (h2 : 2 ≤ ys.length)
    (h : ∀ i, i < ys.length → ys.getD i 0 = a + b * i) :
    olsIntercept ys = a := by
  have hn : (ys.length : ℚ) ≠ 0 := by
    have : (2 : ℚ) ≤ (ys.length : ℚ) := by exact_mod_cast h2
    linarith
  unfold olsIntercept
  rw [olsSlope_affine ys a b h2 h, sum_aff ys a b h]
  rw [show (ys.length : ℚ) * a + b * (∑ i ∈ Finset.range ys.length, (i : ℚ)) -
      b * (∑ i ∈ Finset.range ys.length, (i : ℚ)) = a * (ys.length : ℚ) by ring]
  exact mul_div_cancel_right₀ a hn

lemma clean_zip (dates : List ℤ) (ps : List ℚ) :
    (dates.zip (ps.map some)).filterMap
      (fun r => r.2.map (fun p => (r.1, p))) = dates.zip ps := by
  induction dates generalizing ps with
  | nil => simp
  | cons d dl ih =>
    cases ps with
    | nil => simp
    | cons p pl => simp [ih]

/-- C9: on a series whose prices are exactly affine in index position
(`price i = a + b * i`) with at least 2 points, the forecast for `k`
periods is exactly the `k` points continuing the affine progression at
index positions `n, …, n + k - 1`, dated on the consecutive days after
the last observed date. -/
theorem forecast_affine (dates : List ℤ) (ps : List ℚ) (a b : ℚ) (k : ℕ)
    (hlen : dates.length = ps.length) (h2 : 2 ≤ ps.length)
    (haff : ∀ i : Fin ps.length, ps.get i = a + b * (i : ℕ)) :
    linear_regression_forecast (dates.zip (ps.map some)) k =
      (List.range k).map (fun j =>
        (dates.getLastD 0 + 1 + (j : ℤ),
          a + b * ((ps.length : ℚ) + (j : ℚ)))) := by
  have hgetD : ∀ i, i < ps.length → ps.getD i 0 = a + b * i := by
    intro i hi
    rw [List.getD_eq_getElem ps 0 hi]
    exact haff ⟨i, hi⟩
  have hzlen : (dates.zip ps).length = ps.length := by
    rw [List.length_zip, hlen, min_self]
  simp only [linear_regression_forecast]
  rw [clean_zip]
  rw [if_neg (by rw [hzlen]; omega)]
  rw [List.map_fst_zip dates ps (le_of_eq hlen),
    List.map_snd_zip dates ps (le_of_eq hlen.symm), hzlen,
    olsSlope_affine ps a b h2 hgetD, olsIntercept_affine ps a b h2 hgetD]

/-- Witness for C9: prices 10, 12, 14, 16, 18 on days 0-4 and 2 forecast
periods yield predictions 20 and 22 on days 5 and 6. -/
theorem forecast_affine_spot :
    linear_regression_forecast
      ([0, 1, 2, 3, 4].zip ([(10 : ℚ), 12, 14, 16, 18].map some)) 2 =
      [((5 : ℤ), (20 : ℚ)), (6, 22)] :=
  (forecast_affine [0, 1, 2, 3, 4] [10, 12, 14, 16, 18] 10 2 2 rfl
    (by norm_num) (by intro i; fin_cases i <;> norm_num)).trans
    (by norm_num [List.range_succ])

/-- Embeds `calculate_volatility(df)` from `script.py` lines 67-68:
`df['Return'].std() * (252 ** 0.5) if not df['Return'].isnull().all()
else 0.0`.  The input is the derived `Return` column (as produced by
`calculate_returns`, i.e. `pct_change` of the price column); `none` is a
null entry, and a `none` result stands for NaN (std of fewer than 2
non-null values). -/
noncomputable def calculate_volatility (returns : List (Option ℚ)) : Option ℝ :=
  if !(returns.all fun r => r.isNone) then
    (stdSkipna returns).map (fun s => s * Real.sqrt 252)
  else some 0

/-- C10: when the `Return` column is entirely null, `calculate_volatility`
returns exactly 0.0 — a silent default — rather than NaN or an error. -/
theorem volatility_all_null_zero (returns : List (Option ℚ))
    (h : ∀ r ∈ returns, r = none) :
    calculate_volatility returns = some 0 := by
  have hb : (returns.all fun r => r.isNone) = true := by
    rw [List.all_eq_true]
    intro r hr
    rw [h r hr]
    rfl
  unfold calculate_volatility
  rw [hb]
  simp

/-- Witness for C10: a series with exactly one price point has the
all-null Return column `pct_change([100]) = [NaN]`, and the volatility
helper returns 0.0 for it. -/
theorem volatility_all_null_zero_spot :
    calculate_volatility (pctChange [100]) = some 0 :=
  volatility_all_null_zero (pctChange [100])
    (by intro r hr; simp [pctChange] at hr; exact hr)
